import Mathlib

/-!
Verification of the target-classification and scan-orchestration engine of
`src/instarecon.py` (InstaRecon).  The Python class `InstaRecon` is embedded
shallowly: its mutable state (`targets`, `bad_targets`) becomes an explicit
state record, each `print` site becomes a constructor of an output-message
type, external collaborators (the DNS resolver, and the methods of the
`Host`/`Network` value objects that live in modules not present here) are
abstracted as function parameters, and the IPv4 fraction of the standard
`ipaddress` parsing used by `add_host` is embedded concretely.
-/

set_option linter.unusedVariables false

namespace InstaRecon

/-- An IPv4 CIDR as stored by `ipaddress.ip_network`: the (already masked)
network address value and the prefix length. -/
structure Cidr where
  addr : Nat
  prefixLen : Nat
  deriving DecidableEq

/-- Modelled from the spec: the `Host` value object of `src/host.py` (absent
from the sources).  A Host carries a set of IPs (here: their numeric values),
an optional domain, and the result fields later populated by the scan phases.
Equality is structural, per the uniqueness-by-value rule the spec states for
the Target Set. -/
structure Host where
  ips : List Nat
  domain : Option String
  ns : List String
  mx : List String
  whois_domain : Option String
  cidrs : List Cidr
  subdomains : List String
  linkedin_page : Option String
  deriving DecidableEq

/-- Construction `Host(ips=..., domain=...)` as performed by `add_host`: every scan-result
field still at its default. -/
def mkHost (ips : List Nat) (domain : Option String) : Host :=
  ⟨ips, domain, [], [], none, [], [], none⟩

/-- A classified target: `Host` or `Network` (a `Network` holds its list of
CIDRs, mirroring `Network([net])` in `add_host`). -/
inductive Target where
  | host (h : Host)
  | network (cidrs : List Cidr)
  deriving DecidableEq

/-- Python `set.add`: the element is inserted only if no equal element is
present.  The model keeps insertion order, which is how the value-based set
required by the spec iterates deterministically. -/
def pySetAdd {α : Type} [DecidableEq α] (l : List α) (x : α) : List α :=
  if x ∈ l then l else l ++ [x]

/-- Outcome of `lookup.dns_resolver.query` in `add_host`: a successful answer,
the two caught error classes (`dns.resolver.NXDOMAIN`,
`dns.exception.SyntaxError`), or any other resolver error (carried as a
message), e.g. `NoNameservers` or a timeout. -/
inductive DnsResult where
  | ok (ips : List Nat)
  | nxdomain
  | malformedName
  | otherError (e : String)
  deriving DecidableEq

/-- The three lookups `add_host` performs, in order: `ipaddress.ip_address`,
`ipaddress.ip_network` (both returning `none` where Python raises
`ValueError`), and the DNS forward query. -/
structure Classify where
  ip_address : String → Option Nat
  ip_network : String → Option Cidr
  dns_query : String → DnsResult

/-- One constructor per `print` site of `instarecon.py` that this
development observes (classification and populate-summary messages). -/
inductive Msg where
  | couldNotResolve (raw : String)
  | noHostsToScan
  | scanningHosts (found total : Nat)
  | noShodanKey
  | shodanKeyProvided (key : String)
  | blank
  | reverseDnsBanner (cidrs : List Cidr)
  | scanningBanner (h : Host)
  | dnsHeader
  | domainLine (d : String)
  | ipsLine (s : String)
  | nsLine (s : String)
  | mxLine (s : String)
  | whoisHeader
  | whoisDomainLine (s : String)
  | whoisIpLine (ip : Nat) (s : String)
  | shodanHeader
  | shodanLine (s : String)
  | googleHeader
  | linkedinLine (s : String)
  | subdomainsLine (s : String)
  | noSubdomainsError
  | reverseDnsRangeHeader (cidrs : List Cidr)
  | dnsOnlyBanner (h : Host)
  | dnsOnlyLine (s : String)
  | savingCsv
  deriving DecidableEq

/-- Which of the two sets a single `add_host` call extended. -/
inductive Action where
  | addedTarget (t : Target)
  | addedBad (raw : String)
  deriving DecidableEq

/-- The mutable state of the `InstaRecon` object: `self.targets` and
`self.bad_targets` (both Python sets, modelled as insertion-ordered
duplicate-free lists). -/
structure St where
  targets : List Target
  bad_targets : List String
  deriving DecidableEq

/-- Embeds `InstaRecon.add_host` (src/instarecon.py lines 61-93): try single IP,
then CIDR network, then forward DNS; on `NXDOMAIN`/`SyntaxError` report and
record the raw string in `bad_targets`; any other resolver error propagates
(modelled as `Except.error`). -/
def add_host (cl : Classify) (st : St) (raw : String) :
    Except String (St × List Msg × Action) :=
  match cl.ip_address raw with
  | some ip =>
    Except.ok (⟨pySetAdd st.targets (Target.host (mkHost [ip] none)), st.bad_targets⟩,
      [], Action.addedTarget (Target.host (mkHost [ip] none)))
  | none =>
    match cl.ip_network raw with
    | some net =>
      Except.ok (⟨pySetAdd st.targets (Target.network [net]), st.bad_targets⟩,
        [], Action.addedTarget (Target.network [net]))
    | none =>
      match cl.dns_query raw with
      | DnsResult.ok ips =>
        Except.ok (⟨pySetAdd st.targets (Target.host (mkHost ips (some raw))), st.bad_targets⟩,
          [], Action.addedTarget (Target.host (mkHost ips (some raw))))
      | DnsResult.nxdomain =>
        Except.ok (⟨st.targets, pySetAdd st.bad_targets raw⟩,
          [Msg.couldNotResolve raw], Action.addedBad raw)
      | DnsResult.malformedName =>
        Except.ok (⟨st.targets, pySetAdd st.bad_targets raw⟩,
          [Msg.couldNotResolve raw], Action.addedBad raw)
      | DnsResult.otherError e => Except.error e

/-- The classification decision of `add_host` on one string, as a pure
function of the lookups alone (no state). -/
def classified (cl : Classify) (raw : String) : Except String Action :=
  match cl.ip_address raw with
  | some ip => Except.ok (Action.addedTarget (Target.host (mkHost [ip] none)))
  | none =>
    match cl.ip_network raw with
    | some net => Except.ok (Action.addedTarget (Target.network [net]))
    | none =>
      match cl.dns_query raw with
      | DnsResult.ok ips => Except.ok (Action.addedTarget (Target.host (mkHost ips (some raw))))
      | DnsResult.nxdomain => Except.ok (Action.addedBad raw)
      | DnsResult.malformedName => Except.ok (Action.addedBad raw)
      | DnsResult.otherError e => Except.error e

/-- The loop of `InstaRecon.populate` (lines 47-48): `add_host` on each
user-supplied string in order, accumulating the printed messages. -/
def populateLoop (cl : Classify) : St → List String → Except String (St × List Msg)
  | st, [] => Except.ok (st, [])
  | st, raw :: rest =>
    match add_host cl st raw with
    | Except.error e => Except.error e
    | Except.ok (st1, m, _) =>
      match populateLoop cl st1 rest with
      | Except.error e => Except.error e
      | Except.ok (st2, ms) => Except.ok (st2, m ++ ms)

/-- Python truthiness of an optional string (`if lookup.shodan_key:`,
`if host.domain:`, ...): `None` and the empty string are falsy. -/
def pyTruthy : Option String → Bool
  | none => false
  | some s => s != ""

/-- Embeds `InstaRecon.populate` (lines 46-59): classify every input, then print the
summary, and — only in a full (non-`dns_only`) run with a nonempty target
set — report the presence or absence of the Shodan key exactly once. -/
def populate (cl : Classify) (dns_only : Bool) (key : Option String)
    (st0 : St) (inputs : List String) : Except String (St × List Msg) :=
  match populateLoop cl st0 inputs with
  | Except.error e => Except.error e
  | Except.ok (st, ms) =>
    match st.targets with
    | [] => Except.ok (st, ms ++ [Msg.noHostsToScan])
    | _ =>
      Except.ok (st, ms ++ [Msg.scanningHosts st.targets.length inputs.length] ++
        (if dns_only then []
         else if pyTruthy key then [Msg.shodanKeyProvided (key.getD "")]
         else [Msg.noShodanKey]))

/-! ### Concrete IPv4 parsing

The IPv4 fraction of the Python `ipaddress.ip_address` / `ip_network`
(`strict=False`), embedded so the non-strict host-bit masking and the
concrete examples can be evaluated. -/

/-- Split a character list at every occurrence of `c` (like
`str.split(sep)`, always at least one piece). -/
def splitOnChar (c : Char) : List Char → List (List Char)
  | [] => [[]]
  | x :: xs =>
    match splitOnChar c xs with
    | [] => [[]]
    | y :: ys => if x = c then [] :: y :: ys else (x :: y) :: ys

/-- Value of a nonempty all-digit character list, accumulator form. -/
def decimalAux : List Char → Nat → Option Nat
  | [], acc => some acc
  | c :: cs, acc =>
    if c.isDigit then decimalAux cs (acc * 10 + (c.toNat - 48)) else none

/-- Decimal value of a nonempty all-digit character list. -/
def decimalVal : List Char → Option Nat
  | [] => none
  | l => decimalAux l 0

/-- One dotted-quad octet: at most three characters, all digits, value at
most 255 (the `_parse_octet` rules of the `ipaddress` backport). -/
def parseOctet (cs : List Char) : Option Nat :=
  if cs.length = 0 ∨ 3 < cs.length then none
  else
    match decimalVal cs with
    | none => none
    | some n => if n ≤ 255 then some n else none

/-- Dotted-quad IPv4 parsing on characters: exactly four octets. -/
def parseIPv4Chars (cs : List Char) : Option Nat :=
  match (splitOnChar '.' cs).mapM parseOctet with
  | some [a, b, c, d] => some (((a * 256 + b) * 256 + c) * 256 + d)
  | _ => none

/-- Embeds `ipaddress.ip_address` restricted to IPv4 dotted-quad strings. -/
def parseIPv4 (s : String) : Option Nat :=
  parseIPv4Chars s.data

/-- The prefix-length part after `/`: all digits, at most 32. -/
def parsePrefixLen (cs : List Char) : Option Nat :=
  match decimalVal cs with
  | none => none
  | some n => if n ≤ 32 then some n else none

/-- Non-strict network construction: zero the host bits below the prefix,
i.e. keep only the multiple of `2 ^ (32 - p)`. -/
def maskHostBits (addr p : Nat) : Nat :=
  2 ^ (32 - p) * (addr / 2 ^ (32 - p))

/-- Embeds `ipaddress.ip_network(s, strict=False)` restricted to IPv4: a bare
address is a `/32`; with a prefix the host bits are masked, not rejected. -/
def parseIPv4Network (s : String) : Option Cidr :=
  match splitOnChar '/' s.data with
  | [a] =>
    match parseIPv4Chars a with
    | some n => some ⟨n, 32⟩
    | none => none
  | [a, p] =>
    match parseIPv4Chars a, parsePrefixLen p with
    | some n, some pl => some ⟨maskHostBits n pl, pl⟩
    | _, _ => none
  | _ => none

/-- The concrete classifier used by `add_host` when inputs are IPv4: the
embedded `ipaddress` parsers plus an arbitrary DNS oracle. -/
def pyClassify (dns : String → DnsResult) : Classify :=
  ⟨parseIPv4, parseIPv4Network, dns⟩

/-- Insertion step for sorting; `<` on `String` is the lexicographic order
that Python `sorted` uses on these strings. -/
def insertStr (x : String) : List String → List String
  | [] => [x]
  | y :: ys => if x < y then x :: y :: ys else y :: insertStr x ys

/-- Insertion sort of strings. -/
def sortStrings (l : List String) : List String :=
  l.foldr insertStr []

/-- Embeds `targets = sorted(set(args.targets))` (line 262 of the source): the raw
CLI strings are deduplicated and put in a canonical order before `populate`
ever sees them. -/
def mainTargets (raw : List String) : List String :=
  sortStrings (raw.foldl pySetAdd [])

/-! ### The scan orchestrator

`scan_targets` dispatches one scan method per target.  The `Host`/`Network`
methods it calls live in `src/host.py`, which is not among the sources, so
they are abstracted as an arbitrary `HostOps` record: each lookup method is
an arbitrary transformation of the Host, each printer an arbitrary string
producer.  What remains concrete is exactly the control flow of
`instarecon.py`: which collaborator is invoked, under which condition, and
which message is printed where. -/

/-- The external-collaborator phases a scan can enter (one per `Host`- or
`Network`-method call site in `instarecon.py`). -/
inductive Phase where
  | dns
  | ns
  | mx
  | whoisDomain
  | whoisIP
  | shodan
  | google
  | reverseSweep
  deriving DecidableEq

/-- Observable scan behaviour: entering a collaborator phase, or printing a
message. -/
inductive Event where
  | call (p : Phase)
  | out (m : Msg)
  deriving DecidableEq

/-- Lift a list of printed messages to events. -/
def outs (l : List Msg) : List Event :=
  l.map Event.out

/-- Concatenation of the images of `f` (the per-element row/event blocks). -/
def catMap {α β : Type} (f : α → List β) : List α → List β
  | [] => []
  | a :: l => f a ++ catMap f l

/-- Occurrences of a message in an output transcript. -/
def countMsg (m : Msg) : List Msg → Nat
  | [] => 0
  | x :: l => (if x = m then 1 else 0) + countMsg m l

/-- The `Host` methods and printers used by the scans (absent
`src/host.py`), abstracted as arbitrary functions. -/
structure HostOps where
  dns_lookups : Host → Host
  ns_dns_lookup : Host → Host
  mx_dns_lookup : Host → Host
  get_whois_domain : Host → Host
  get_whois_ip : Host → Host
  get_all_shodan : String → Host → Host
  google_lookups : Host → Host
  reverse_lookup_on_related_cidrs : Host → Host
  print_all_ips : Host → String
  print_all_ns : Host → String
  print_all_mx : Host → String
  print_whois_ip : Host → Nat → Option String
  print_all_shodan : Host → Option String
  print_subdomains : Host → String
  print_dns_only : Host → String

/-- Lines 162-173 of `full_scan_on_host`: the Shodan block runs only when
`lookup.shodan_key` is truthy. -/
def shodanSeg (ops : HostOps) (key : Option String) (h5 : Host) : Host × List Event :=
  if pyTruthy key then
    let h6 := ops.get_all_shodan (key.getD "") h5
    (h6, outs [Msg.blank, Msg.shodanHeader] ++ [Event.call Phase.shodan] ++
      outs (if pyTruthy (ops.print_all_shodan h6)
        then [Msg.shodanLine ((ops.print_all_shodan h6).getD "")] else []))
  else (h5, [])

/-- Lines 175-188: the Google subdomain/LinkedIn block runs only when the
host carries a (truthy) domain; an empty subdomain result prints the
distinct blocking warning. -/
def googleSeg (ops : HostOps) (h6 : Host) : Host × List Event :=
  if pyTruthy h6.domain then
    let h7 := ops.google_lookups h6
    (h7, outs [Msg.blank, Msg.googleHeader] ++ [Event.call Phase.google] ++
      outs ((if pyTruthy h7.linkedin_page
          then [Msg.linkedinLine (h7.linkedin_page.getD "")] else []) ++
        (if h7.subdomains = [] then [Msg.noSubdomainsError]
         else [Msg.subdomainsLine (ops.print_subdomains h7)])))
  else (h6, [])

/-- Lines 190-194: the reverse sweep over whois-discovered CIDRs runs only
when `host.cidrs` is nonempty. -/
def sweepSeg (ops : HostOps) (h7 : Host) : Host × List Event :=
  if h7.cidrs = [] then (h7, [])
  else (ops.reverse_lookup_on_related_cidrs h7,
    outs [Msg.blank, Msg.reverseDnsRangeHeader h7.cidrs] ++ [Event.call Phase.reverseSweep])

/-- Embeds `InstaRecon.full_scan_on_host` (lines 112-194): DNS, NS, MX, whois-domain
and whois-IP phases unconditionally, then the three guarded blocks. -/
def full_scan_on_host (ops : HostOps) (key : Option String) (h : Host) :
    Host × List Event :=
  let h1 := ops.dns_lookups h
  let domainMsgs : List Msg :=
    if pyTruthy h1.domain then [Msg.domainLine (h1.domain.getD "")] else []
  let ipsMsgs : List Msg :=
    if h1.ips = [] then [] else [Msg.blank, Msg.ipsLine (ops.print_all_ips h1)]
  let h2 := ops.ns_dns_lookup h1
  let nsMsgs : List Msg :=
    if h2.ns = [] then [] else [Msg.blank, Msg.nsLine (ops.print_all_ns h2)]
  let h3 := ops.mx_dns_lookup h2
  let mxMsgs : List Msg :=
    if h3.mx = [] then [] else [Msg.blank, Msg.mxLine (ops.print_all_mx h3)]
  let h4 := ops.get_whois_domain h3
  let wdMsgs : List Msg :=
    if pyTruthy h4.whois_domain
      then [Msg.blank, Msg.whoisDomainLine (h4.whois_domain.getD "")] else []
  let h5 := ops.get_whois_ip h4
  let wipMsgs : List Msg :=
    catMap (fun ip =>
      if pyTruthy (ops.print_whois_ip h5 ip)
        then [Msg.blank, Msg.whoisIpLine ip ((ops.print_whois_ip h5 ip).getD "")] else [])
      h5.ips
  let s6 := shodanSeg ops key h5
  let s7 := googleSeg ops s6.1
  let s8 := sweepSeg ops s7.1
  (s8.1,
    outs [Msg.blank, Msg.scanningBanner h, Msg.blank, Msg.dnsHeader] ++
    [Event.call Phase.dns] ++ outs domainMsgs ++ outs ipsMsgs ++
    [Event.call Phase.ns] ++ outs nsMsgs ++
    [Event.call Phase.mx] ++ outs mxMsgs ++
    outs [Msg.blank, Msg.whoisHeader] ++
    [Event.call Phase.whoisDomain] ++ outs wdMsgs ++
    [Event.call Phase.whoisIP] ++ outs wipMsgs ++
    s6.2 ++ s7.2 ++ s8.2)

/-- Embeds `InstaRecon.dns_scan_on_host` (lines 196-205): only the DNS lookups, and
the condensed result line exactly when a domain was resolved. -/
def dns_scan_on_host (ops : HostOps) (h : Host) : Host × List Event :=
  let h1 := ops.dns_lookups h
  (h1, outs [Msg.blank, Msg.dnsOnlyBanner h] ++ [Event.call Phase.dns] ++
    (if pyTruthy h1.domain
      then outs [Msg.blank, Msg.dnsOnlyLine (ops.print_dns_only h1)] else []))

/-- Embeds `InstaRecon.reverse_dns_on_network` (lines 105-110). -/
def reverse_dns_on_network (cidrs : List Cidr) : List Event :=
  outs [Msg.blank, Msg.reverseDnsBanner cidrs] ++ [Event.call Phase.reverseSweep]

/-- Per-target dispatch of `InstaRecon.scan_targets` (lines 95-103). -/
def scan_one (ops : HostOps) (key : Option String) (dns_only : Bool) :
    Target → Target × List Event
  | Target.host h =>
    if dns_only then
      ((Target.host (dns_scan_on_host ops h).1), (dns_scan_on_host ops h).2)
    else
      ((Target.host (full_scan_on_host ops key h).1), (full_scan_on_host ops key h).2)
  | Target.network cs => (Target.network cs, reverse_dns_on_network cs)

/-- Embeds `InstaRecon.scan_targets`: one scan per target, in the iteration
order of the set. -/
def scan_targets (ops : HostOps) (key : Option String) (dns_only : Bool)
    (st : St) : List (Target × List Event) :=
  st.targets.map (scan_one ops key dns_only)

/-! ### The CSV export writer

`write_output_csv` (lines 207-246): rows are produced per target by the
(absent, hence abstracted) generator `print_as_csv_lines`, with a separator
row after each target block; then a retry loop writes the whole row list,
prompting again on any failure, until a write succeeds or the user confirms
an interrupt. -/

/-- One CSV row. -/
abbrev Row := List String

/-- The row list accumulated before the write loop: the csv lines of each
target followed by the newline separator row appended when its generator is
exhausted. -/
def buildRows (csvOf : Target → List Row) (targets : List Target) : List Row :=
  catMap (fun t => csvOf t ++ [["\n"]]) targets

/-- Outcome of one iteration of the write-retry loop: the `open`/write
succeeds; it fails with some exception (the user is prompted and the loop
retries); or the user interrupts during the loop and answers the
are-you-sure prompt with yes (abort) or no (retry). -/
inductive Attempt where
  | success
  | failWrite
  | interrupt (confirmExit : Bool)
  deriving DecidableEq

/-- Result of the write loop: file written, aborted by confirmed interrupt,
or still looping (the supplied attempt list ran out without a decision). -/
inductive WStatus where
  | written
  | interrupted
  | looping
  deriving DecidableEq

/-- The `while not output_written` loop of `write_output_csv`, driven by the
sequence of per-iteration outcomes; the second component is the file content
(`none` while nothing has been successfully written). -/
def write_loop (rows : List Row) (file : Option (List Row)) :
    List Attempt → WStatus × Option (List Row)
  | [] => (WStatus.looping, file)
  | Attempt.success :: _ => (WStatus.written, some rows)
  | Attempt.failWrite :: rest => write_loop rows file rest
  | Attempt.interrupt true :: _ => (WStatus.interrupted, file)
  | Attempt.interrupt false :: rest => write_loop rows file rest

/-! ### Helper lemmas about the Python-set model -/

theorem mem_pySetAdd {α : Type} [DecidableEq α] {l : List α} {x y : α} :
    y ∈ pySetAdd l x ↔ y ∈ l ∨ y = x := by
  unfold pySetAdd
  split
  · rename_i h
    exact ⟨Or.inl, fun hy => hy.elim id (fun he => he ▸ h)⟩
  · simp

theorem pySetAdd_of_mem {α : Type} [DecidableEq α] {l : List α} {x : α} (h : x ∈ l) :
    pySetAdd l x = l := by
  unfold pySetAdd
  simp [h]

theorem length_pySetAdd {α : Type} [DecidableEq α] (l : List α) (x : α) :
    (pySetAdd l x).length ≤ l.length + 1 := by
  unfold pySetAdd
  split
  · exact Nat.le_succ _
  · simp

/-- Any network produced by the non-strict IPv4 parser has its host bits
zeroed: its address is a multiple of `2 ^ (32 - prefixLen)`. -/
theorem parseIPv4Network_hostBits {s : String} {c : Cidr}
    (h : parseIPv4Network s = some c) : c.addr % 2 ^ (32 - c.prefixLen) = 0 := by
  unfold parseIPv4Network at h
  split at h
  · split at h
    · injection h with h
      subst h
      exact Nat.mod_one _
    · exact absurd h (by simp)
  · split at h
    · rename_i n pl heq
      injection h with h
      subst h
      exact Nat.mul_mod_right _ _
    · exact absurd h (by simp)
  · exact absurd h (by simp)

/-! ### C1, C2, C5, C6: the classifier -/

/-- C1: `add_host` tries the three interpretations in strict order with the
first success winning; when the string parses as a single IP it yields a Host
with exactly that one IP and no domain, and — since the result does not
depend on the network parser or the DNS resolver at all — no later
interpretation is attempted. -/
theorem classify_ip_first (cl : Classify) (st : St) (raw : String) (ip : Nat)
    (h : cl.ip_address raw = some ip) :
    add_host cl st raw =
      Except.ok (⟨pySetAdd st.targets (Target.host (mkHost [ip] none)), st.bad_targets⟩,
        [], Action.addedTarget (Target.host (mkHost [ip] none)))
    ∧ (mkHost [ip] none).ips = [ip]
    ∧ (mkHost [ip] none).domain = none
    ∧ ∀ netf dnsf, add_host ⟨cl.ip_address, netf, dnsf⟩ st raw = add_host cl st raw := by
  refine ⟨?_, rfl, rfl, ?_⟩
  · simp [add_host, h]
  · intro netf dnsf
    simp [add_host, h]

theorem classify_ip_first_witness :
    (pyClassify fun _ => DnsResult.nxdomain).ip_address "8.8.8.8" = some 134744072 ∧
    add_host (pyClassify fun _ => DnsResult.nxdomain) ⟨[], []⟩ "8.8.8.8" =
      Except.ok (⟨pySetAdd ([] : List Target) (Target.host (mkHost [134744072] none)), []⟩,
        [], Action.addedTarget (Target.host (mkHost [134744072] none))) :=
  ⟨by decide, (classify_ip_first _ _ _ _ (by decide)).1⟩

/-- C2: when the string is not a single IP but is a CIDR expression, a
Network with that one CIDR is produced, and the stored CIDR always has its
host bits masked (non-strict construction). -/
theorem classify_cidr_nonstrict (dns : String → DnsResult) (st : St) (raw : String) (net : Cidr)
    (hip : parseIPv4 raw = none) (hnet : parseIPv4Network raw = some net) :
    add_host (pyClassify dns) st raw =
      Except.ok (⟨pySetAdd st.targets (Target.network [net]), st.bad_targets⟩,
        [], Action.addedTarget (Target.network [net]))
    ∧ net.addr % 2 ^ (32 - net.prefixLen) = 0 := by
  constructor
  · simp [add_host, pyClassify, hip, hnet]
  · exact parseIPv4Network_hostBits hnet

theorem classify_cidr_nonstrict_witness :
    parseIPv4 "8.8.8.1/24" = none ∧
    parseIPv4Network "8.8.8.1/24" = some ⟨134744064, 24⟩ ∧
    (add_host (pyClassify fun _ => DnsResult.nxdomain) ⟨[], []⟩ "8.8.8.1/24" =
      Except.ok (⟨pySetAdd ([] : List Target) (Target.network [⟨134744064, 24⟩]), []⟩,
        [], Action.addedTarget (Target.network [⟨134744064, 24⟩]))
      ∧ (134744064 : Nat) % 2 ^ (32 - 24) = 0) :=
  ⟨by decide, by decide,
    classify_cidr_nonstrict (fun _ => DnsResult.nxdomain) ⟨[], []⟩ "8.8.8.1/24" ⟨134744064, 24⟩
      (by decide) (by decide)⟩

/-- C5: `add_host` errors out exactly when all parses fail and the DNS query
raises something other than the four handled kinds (not-an-IP and not-a-CIDR
are the `ValueError` results of the parsers, name-does-not-exist and
malformed-name the two caught resolver exceptions); such an error also
propagates uncaught through `populate`. -/
theorem classifier_error_propagation (cl : Classify) (st : St) (raw : String) :
    ((∃ e, add_host cl st raw = Except.error e) ↔
        cl.ip_address raw = none ∧ cl.ip_network raw = none ∧
          ∃ e, cl.dns_query raw = DnsResult.otherError e)
    ∧ (∀ e, cl.ip_address raw = none → cl.ip_network raw = none →
        cl.dns_query raw = DnsResult.otherError e →
          add_host cl st raw = Except.error e ∧
          populate cl false none st [raw] = Except.error e) := by
  constructor
  · rcases hip : cl.ip_address raw with _ | ip
    · rcases hnet : cl.ip_network raw with _ | net
      · rcases hdns : cl.dns_query raw with ips | _ | _ | e <;>
          simp [add_host, hip, hnet, hdns]
      · simp [add_host, hip, hnet]
    · simp [add_host, hip]
  · intro e hip hnet hdns
    constructor
    · simp [add_host, hip, hnet, hdns]
    · simp [populate, populateLoop, add_host, hip, hnet, hdns]

theorem classifier_error_propagation_witness :
    (pyClassify fun _ => DnsResult.otherError "NoNameservers").ip_address "zzz" = none ∧
    (pyClassify fun _ => DnsResult.otherError "NoNameservers").ip_network "zzz" = none ∧
    (pyClassify fun _ => DnsResult.otherError "NoNameservers").dns_query "zzz" =
      DnsResult.otherError "NoNameservers" ∧
    add_host (pyClassify fun _ => DnsResult.otherError "NoNameservers") ⟨[], []⟩ "zzz" =
      Except.error "NoNameservers" ∧
    populate (pyClassify fun _ => DnsResult.otherError "NoNameservers") false none
        ⟨[], []⟩ ["zzz"] = Except.error "NoNameservers" :=
  ⟨by decide, by decide, rfl,
    ((classifier_error_propagation _ ⟨[], []⟩ "zzz").2 "NoNameservers"
      (by decide) (by decide) rfl).1,
    ((classifier_error_propagation _ ⟨[], []⟩ "zzz").2 "NoNameservers"
      (by decide) (by decide) rfl).2⟩

/-- C6: an input that is neither IP nor CIDR and whose resolution fails with
name-does-not-exist or malformed-name is reported immediately, the original
string is added unmodified to `bad_targets`, and the target set is left
unchanged (no Target is created). -/
theorem classify_unresolved_reported (cl : Classify) (st : St) (raw : String)
    (hip : cl.ip_address raw = none) (hnet : cl.ip_network raw = none)
    (hdns : cl.dns_query raw = DnsResult.nxdomain ∨
      cl.dns_query raw = DnsResult.malformedName) :
    add_host cl st raw =
      Except.ok (⟨st.targets, pySetAdd st.bad_targets raw⟩,
        [Msg.couldNotResolve raw], Action.addedBad raw)
    ∧ raw ∈ pySetAdd st.bad_targets raw := by
  constructor
  · rcases hdns with h | h <;> simp [add_host, hip, hnet, h]
  · exact mem_pySetAdd.mpr (Or.inr rfl)

theorem pySetAdd_self_mem {α : Type} [DecidableEq α] (l : List α) (x : α) :
    x ∈ pySetAdd l x :=
  mem_pySetAdd.mpr (Or.inr rfl)

theorem pySetAdd_idem {α : Type} [DecidableEq α] (l : List α) (x : α) :
    pySetAdd (pySetAdd l x) x = pySetAdd l x :=
  pySetAdd_of_mem (pySetAdd_self_mem l x)

/-- A successful `add_host` call performs the action `classified` decides for
the string, and that action extends exactly one of the two sets: a new Target
into `targets` with `bad_targets` untouched, or the raw string into
`bad_targets` with `targets` untouched. -/
theorem add_host_cases {cl : Classify} {st : St} {raw : String} {st' : St}
    {m : List Msg} {a : Action} (h : add_host cl st raw = Except.ok (st', m, a)) :
    classified cl raw = Except.ok a ∧
    ((∃ t, a = Action.addedTarget t ∧ st'.targets = pySetAdd st.targets t ∧
        st'.bad_targets = st.bad_targets) ∨
     (a = Action.addedBad raw ∧ st'.targets = st.targets ∧
        st'.bad_targets = pySetAdd st.bad_targets raw)) := by
  rcases hip : cl.ip_address raw with _ | ip
  · rcases hnet : cl.ip_network raw with _ | net
    · rcases hdns : cl.dns_query raw with ips | _ | _ | e
      · simp only [add_host, hip, hnet, hdns, Except.ok.injEq, Prod.mk.injEq] at h
        obtain ⟨h1, h2, h3⟩ := h
        subst h1; subst h2; subst h3
        exact ⟨by simp [classified, hip, hnet, hdns], Or.inl ⟨_, rfl, rfl, rfl⟩⟩
      · simp only [add_host, hip, hnet, hdns, Except.ok.injEq, Prod.mk.injEq] at h
        obtain ⟨h1, h2, h3⟩ := h
        subst h1; subst h2; subst h3
        exact ⟨by simp [classified, hip, hnet, hdns], Or.inr ⟨rfl, rfl, rfl⟩⟩
      · simp only [add_host, hip, hnet, hdns, Except.ok.injEq, Prod.mk.injEq] at h
        obtain ⟨h1, h2, h3⟩ := h
        subst h1; subst h2; subst h3
        exact ⟨by simp [classified, hip, hnet, hdns], Or.inr ⟨rfl, rfl, rfl⟩⟩
      · simp only [add_host, hip, hnet, hdns] at h
        exact Except.noConfusion h
    · simp only [add_host, hip, hnet, Except.ok.injEq, Prod.mk.injEq] at h
      obtain ⟨h1, h2, h3⟩ := h
      subst h1; subst h2; subst h3
      exact ⟨by simp [classified, hip, hnet], Or.inl ⟨_, rfl, rfl, rfl⟩⟩
  · simp only [add_host, hip, Except.ok.injEq, Prod.mk.injEq] at h
    obtain ⟨h1, h2, h3⟩ := h
    subst h1; subst h2; subst h3
    exact ⟨by simp [classified, hip], Or.inl ⟨_, rfl, rfl, rfl⟩⟩

/-- Invariant of the `populate` loop: targets only grow, `bad_targets` holds
exactly the prior members plus the processed strings classified as bad, every
string classified as a Target has that Target in the final set, and every
processed string was classified without a propagating error. -/
theorem populateLoop_acct (cl : Classify) (inputs : List String) :
    ∀ (st0 stF : St) (ms : List Msg),
      populateLoop cl st0 inputs = Except.ok (stF, ms) →
      (∀ t, t ∈ st0.targets → t ∈ stF.targets) ∧
      (∀ r, r ∈ stF.bad_targets ↔ r ∈ st0.bad_targets ∨
          (r ∈ inputs ∧ classified cl r = Except.ok (Action.addedBad r))) ∧
      (∀ raw, raw ∈ inputs → ∀ t, classified cl raw = Except.ok (Action.addedTarget t) →
          t ∈ stF.targets) ∧
      (∀ raw, raw ∈ inputs → ∃ a, classified cl raw = Except.ok a) := by
  induction inputs with
  | nil =>
    intro st0 stF ms h
    simp only [populateLoop, Except.ok.injEq, Prod.mk.injEq] at h
    obtain ⟨h1, h2⟩ := h
    subst h1
    exact ⟨fun t ht => ht, fun r => by simp, fun raw hr => absurd hr (List.not_mem_nil _),
      fun raw hr => absurd hr (List.not_mem_nil _)⟩
  | cons raw rest ih =>
    intro st0 stF ms h
    rw [populateLoop] at h
    split at h
    · exact Except.noConfusion h
    · rename_i st1 m1 a1 ha
      split at h
      · exact Except.noConfusion h
      · rename_i st2 ms2 hl
        simp only [Except.ok.injEq, Prod.mk.injEq] at h
        obtain ⟨h1, h2⟩ := h
        subst h1
        obtain ⟨mono, bads, tgts, oks⟩ := ih st1 st2 ms2 hl
        obtain ⟨hcl, hcases⟩ := add_host_cases ha
        refine ⟨?_, ?_, ?_, ?_⟩
        · intro t ht
          rcases hcases with ⟨t0, ha1, htg, hbd⟩ | ⟨ha1, htg, hbd⟩
          · exact mono t (htg ▸ mem_pySetAdd.mpr (Or.inl ht))
          · exact mono t (htg ▸ ht)
        · intro r
          rw [bads r]
          rcases hcases with ⟨t0, ha1, htg, hbd⟩ | ⟨ha1, htg, hbd⟩
          · subst ha1
            rw [hbd]
            have hnb : r = raw → classified cl r = Except.ok (Action.addedBad r) → False := by
              rintro rfl hc
              have := hcl.symm.trans hc
              simp at this
            simp only [List.mem_cons]
            tauto
          · subst ha1
            rw [hbd, mem_pySetAdd]
            have hC : r = raw → classified cl r = Except.ok (Action.addedBad r) := by
              rintro rfl
              exact hcl
            simp only [List.mem_cons]
            tauto
        · intro raw' hr' t hct
          rcases List.mem_cons.mp hr' with rfl | hr2
          · rcases hcases with ⟨t0, ha1, htg, hbd⟩ | ⟨ha1, htg, hbd⟩
            · subst ha1
              have heq := hcl.symm.trans hct
              simp only [Except.ok.injEq, Action.addedTarget.injEq] at heq
              subst heq
              have hm : t0 ∈ st1.targets := by
                rw [htg]
                exact pySetAdd_self_mem st0.targets t0
              exact mono t0 hm
            · subst ha1
              have heq := hcl.symm.trans hct
              simp at heq
          · exact tgts raw' hr2 t hct
        · intro raw' hr'
          rcases List.mem_cons.mp hr' with rfl | hr2
          · exact ⟨a1, hcl⟩
          · exact oks raw' hr2

/-- Lemma: `populate` returns the state computed by its loop unchanged (the summary
branch only appends messages). -/
theorem populate_ok_loop {cl : Classify} {d : Bool} {k : Option String} {st0 : St}
    {inputs : List String} {st : St} {msgs : List Msg}
    (h : populate cl d k st0 inputs = Except.ok (st, msgs)) :
    ∃ ms, populateLoop cl st0 inputs = Except.ok (st, ms) := by
  unfold populate at h
  split at h
  · exact Except.noConfusion h
  · rename_i st1 ms hl
    split at h <;>
    · simp only [Except.ok.injEq, Prod.mk.injEq] at h
      obtain ⟨h1, h2⟩ := h
      subst h1
      exact ⟨ms, hl⟩

/-- The bad-input action always carries the classified string itself. -/
theorem classified_bad_eq {cl : Classify} {raw r : String}
    (h : classified cl raw = Except.ok (Action.addedBad r)) : r = raw := by
  revert h
  unfold classified
  rcases hip : cl.ip_address raw with _ | ip
  · rcases hnet : cl.ip_network raw with _ | net
    · rcases hdns : cl.dns_query raw with ips | _ | _ | e <;> intro h <;> simp_all
    · intro h
      simp_all
  · intro h
    simp_all

/-- C10: after a successful `populate` over a fresh orchestrator, every input
string is accounted for in exactly one of the two sets — classified bad and
present in `bad_targets` (with no Target classification), or classified as a
Target that is present in `targets` (and absent from `bad_targets`) — and a
single `add_host` call grows the target set by at most one element. -/
theorem populate_accounting :
    (∀ (cl : Classify) (d : Bool) (k : Option String) (inputs : List String)
        (st : St) (msgs : List Msg),
      populate cl d k ⟨[], []⟩ inputs = Except.ok (st, msgs) →
      ∀ raw ∈ inputs,
        (classified cl raw = Except.ok (Action.addedBad raw) ∧ raw ∈ st.bad_targets ∧
          ∀ t, classified cl raw ≠ Except.ok (Action.addedTarget t)) ∨
        ((∃ t, classified cl raw = Except.ok (Action.addedTarget t) ∧ t ∈ st.targets) ∧
          raw ∉ st.bad_targets))
    ∧ (∀ (cl : Classify) (st : St) (raw : String) (st' : St) (m : List Msg) (a : Action),
        add_host cl st raw = Except.ok (st', m, a) →
        st'.targets.length ≤ st.targets.length + 1) := by
  constructor
  · intro cl d k inputs st msgs h raw hraw
    obtain ⟨ms, hl⟩ := populate_ok_loop h
    obtain ⟨mono, bads, tgts, oks⟩ := populateLoop_acct cl inputs ⟨[], []⟩ st ms hl
    obtain ⟨a, hact⟩ := oks raw hraw
    rcases a with t | r
    · refine Or.inr ⟨⟨t, hact, tgts raw hraw t hact⟩, ?_⟩
      intro hbad
      rcases (bads raw).mp hbad with hmem | ⟨_, hc⟩
      · exact absurd hmem (List.not_mem_nil _)
      · have := hact.symm.trans hc
        simp at this
    · have hr : r = raw := classified_bad_eq hact
      rw [hr] at hact
      refine Or.inl ⟨hact, (bads raw).mpr (Or.inr ⟨hraw, hact⟩), ?_⟩
      intro t hc
      have := hact.symm.trans hc
      simp at this
  · intro cl st raw st' m a h
    obtain ⟨_, hcases⟩ := add_host_cases h
    rcases hcases with ⟨t0, _, htg, _⟩ | ⟨_, htg, _⟩
    · rw [htg]
      exact length_pySetAdd st.targets t0
    · rw [htg]
      exact Nat.le_succ _

theorem populate_accounting_witness :
    (populate (pyClassify fun _ => DnsResult.nxdomain) false none ⟨[], []⟩
        ["8.8.8.8", "zzz"] =
      Except.ok (⟨[Target.host (mkHost [134744072] none)], ["zzz"]⟩,
        [Msg.couldNotResolve "zzz", Msg.scanningHosts 1 2, Msg.noShodanKey])) ∧
    ((classified (pyClassify fun _ => DnsResult.nxdomain) "zzz" =
        Except.ok (Action.addedBad "zzz") ∧
      "zzz" ∈ (⟨[Target.host (mkHost [134744072] none)], ["zzz"]⟩ : St).bad_targets ∧
      ∀ t, classified (pyClassify fun _ => DnsResult.nxdomain) "zzz" ≠
        Except.ok (Action.addedTarget t)) ∨
     ((∃ t, classified (pyClassify fun _ => DnsResult.nxdomain) "zzz" =
          Except.ok (Action.addedTarget t) ∧
        t ∈ (⟨[Target.host (mkHost [134744072] none)], ["zzz"]⟩ : St).targets) ∧
      "zzz" ∉ (⟨[Target.host (mkHost [134744072] none)], ["zzz"]⟩ : St).bad_targets)) :=
  ⟨rfl, populate_accounting.1 (pyClassify fun _ => DnsResult.nxdomain) false none
    ["8.8.8.8", "zzz"]
    ⟨[Target.host (mkHost [134744072] none)], ["zzz"]⟩
    [Msg.couldNotResolve "zzz", Msg.scanningHosts 1 2, Msg.noShodanKey]
    rfl "zzz" (by simp)⟩

/-- C8: duplicated user input does not produce duplicated targets — the CLI
entry point already deduplicates the raw strings (`sorted(set(...))`),
`populate` on the duplicated list yields exactly one Host, and re-adding a
string whose classification already extended the state leaves the state
unchanged (so nothing is scanned twice). -/
theorem targets_deduplicated :
    mainTargets ["8.8.8.8", "8.8.8.8"] = ["8.8.8.8"]
    ∧ (∀ d, ∃ msgs,
        populate (pyClassify d) false none ⟨[], []⟩ ["8.8.8.8", "8.8.8.8"] =
          Except.ok (⟨[Target.host (mkHost [134744072] none)], []⟩, msgs) ∧
        [Target.host (mkHost [134744072] none)].length = 1)
    ∧ (∀ (cl : Classify) (st : St) (raw : String) (st1 : St) (m1 : List Msg) (a1 : Action),
        add_host cl st raw = Except.ok (st1, m1, a1) →
        ∃ m2 a2, add_host cl st1 raw = Except.ok (st1, m2, a2)) := by
  refine ⟨by decide, ?_, ?_⟩
  · intro d
    exact ⟨[Msg.scanningHosts 1 2, Msg.noShodanKey], rfl, rfl⟩
  · intro cl st raw st1 m1 a1 ha
    rcases hip : cl.ip_address raw with _ | ip
    · rcases hnet : cl.ip_network raw with _ | net
      · rcases hdns : cl.dns_query raw with ips | _ | _ | e
        · simp only [add_host, hip, hnet, hdns, Except.ok.injEq, Prod.mk.injEq] at ha
          obtain ⟨h1, h2, h3⟩ := ha
          subst h1
          exact ⟨[], Action.addedTarget (Target.host (mkHost ips (some raw))),
            by simp [add_host, hip, hnet, hdns, pySetAdd_idem]⟩
        · simp only [add_host, hip, hnet, hdns, Except.ok.injEq, Prod.mk.injEq] at ha
          obtain ⟨h1, h2, h3⟩ := ha
          subst h1
          exact ⟨[Msg.couldNotResolve raw], Action.addedBad raw,
            by simp [add_host, hip, hnet, hdns, pySetAdd_idem]⟩
        · simp only [add_host, hip, hnet, hdns, Except.ok.injEq, Prod.mk.injEq] at ha
          obtain ⟨h1, h2, h3⟩ := ha
          subst h1
          exact ⟨[Msg.couldNotResolve raw], Action.addedBad raw,
            by simp [add_host, hip, hnet, hdns, pySetAdd_idem]⟩
        · simp only [add_host, hip, hnet, hdns] at ha
          exact Except.noConfusion ha
      · simp only [add_host, hip, hnet, Except.ok.injEq, Prod.mk.injEq] at ha
        obtain ⟨h1, h2, h3⟩ := ha
        subst h1
        exact ⟨[], Action.addedTarget (Target.network [net]),
          by simp [add_host, hip, hnet, pySetAdd_idem]⟩
    · simp only [add_host, hip, Except.ok.injEq, Prod.mk.injEq] at ha
      obtain ⟨h1, h2, h3⟩ := ha
      subst h1
      exact ⟨[], Action.addedTarget (Target.host (mkHost [ip] none)),
        by simp [add_host, hip, pySetAdd_idem]⟩

theorem targets_deduplicated_witness :
    add_host (pyClassify fun _ => DnsResult.nxdomain) ⟨[], []⟩ "8.8.8.8" =
      Except.ok (⟨[Target.host (mkHost [134744072] none)], []⟩, [],
        Action.addedTarget (Target.host (mkHost [134744072] none))) ∧
    ∃ m2 a2,
      add_host (pyClassify fun _ => DnsResult.nxdomain)
          ⟨[Target.host (mkHost [134744072] none)], []⟩ "8.8.8.8" =
        Except.ok (⟨[Target.host (mkHost [134744072] none)], []⟩, m2, a2) :=
  ⟨rfl, targets_deduplicated.2.2 (pyClassify fun _ => DnsResult.nxdomain) ⟨[], []⟩ "8.8.8.8"
    ⟨[Target.host (mkHost [134744072] none)], []⟩ []
    (Action.addedTarget (Target.host (mkHost [134744072] none))) rfl⟩

theorem classify_unresolved_reported_witness :
    parseIPv4 "zzz" = none ∧ parseIPv4Network "zzz" = none ∧
    (add_host (pyClassify fun _ => DnsResult.nxdomain) ⟨[], []⟩ "zzz" =
      Except.ok (⟨[], pySetAdd ([] : List String) "zzz"⟩,
        [Msg.couldNotResolve "zzz"], Action.addedBad "zzz")
      ∧ "zzz" ∈ pySetAdd ([] : List String) "zzz") :=
  ⟨by decide, by decide,
    classify_unresolved_reported _ ⟨[], []⟩ _ (by decide) (by decide) (Or.inl rfl)⟩

/-! ### Scan-trace lemmas -/

theorem call_not_mem_outs (p : Phase) (l : List Msg) : Event.call p ∉ outs l := by
  simp [outs, List.mem_map]

theorem out_mem_outs {m : Msg} {l : List Msg} : Event.out m ∈ outs l ↔ m ∈ l := by
  simp [outs, List.mem_map]

theorem call_not_mem_ite_outs {p : Phase} {c : Prop} [Decidable c] {l : List Msg} :
    Event.call p ∉ (if c then outs l else []) := by
  split
  · exact call_not_mem_outs p l
  · exact List.not_mem_nil _

theorem mem_ite_nil {α : Type} {x : α} {c : Prop} [Decidable c] {l : List α} :
    (x ∈ (if c then l else [])) ↔ (c ∧ x ∈ l) := by
  split <;> rename_i hc <;> simp [hc]

theorem mem_catMap {α β : Type} {f : α → List β} {b : β} :
    ∀ {l : List α}, b ∈ catMap f l ↔ ∃ a ∈ l, b ∈ f a := by
  intro l
  induction l with
  | nil => simp [catMap]
  | cons a l ih => simp [catMap, List.mem_append, ih]

theorem not_mem_catMap {α β : Type} {f : α → List β} {l : List α} {b : β}
    (h : ∀ a, b ∉ f a) : b ∉ catMap f l := by
  intro hm
  rcases mem_catMap.mp hm with ⟨a, _, hb⟩
  exact h a hb

theorem call_mem_shodanSeg {ops : HostOps} {key : Option String} {h5 : Host} {p : Phase} :
    Event.call p ∈ (shodanSeg ops key h5).2 ↔ (pyTruthy key = true ∧ p = Phase.shodan) := by
  unfold shodanSeg
  split
  · rename_i hk
    simp [List.mem_append, call_not_mem_outs, hk]
  · rename_i hk
    simp [hk]

theorem noShodan_not_mem_shodanSeg {ops : HostOps} {key : Option String} {h5 : Host} :
    Event.out Msg.noShodanKey ∉ (shodanSeg ops key h5).2 := by
  unfold shodanSeg
  split
  · simp [List.mem_append, out_mem_outs]
  · simp

theorem call_mem_googleSeg {ops : HostOps} {h6 : Host} {p : Phase} :
    Event.call p ∈ (googleSeg ops h6).2 ↔ (pyTruthy h6.domain = true ∧ p = Phase.google) := by
  unfold googleSeg
  split
  · rename_i hd
    simp [List.mem_append, call_not_mem_outs, hd]
  · rename_i hd
    simp [hd]

theorem noShodan_not_mem_googleSeg {ops : HostOps} {h6 : Host} :
    Event.out Msg.noShodanKey ∉ (googleSeg ops h6).2 := by
  unfold googleSeg
  split
  · simp [List.mem_append, out_mem_outs]
    split <;> simp
  · simp

theorem call_mem_sweepSeg {ops : HostOps} {h7 : Host} {p : Phase} :
    Event.call p ∈ (sweepSeg ops h7).2 ↔ (h7.cidrs ≠ [] ∧ p = Phase.reverseSweep) := by
  unfold sweepSeg
  split
  · rename_i hc
    simp [hc]
  · rename_i hc
    simp [List.mem_append, call_not_mem_outs, hc]

theorem noShodan_not_mem_sweepSeg {ops : HostOps} {h7 : Host} :
    Event.out Msg.noShodanKey ∉ (sweepSeg ops h7).2 := by
  unfold sweepSeg
  split
  · simp
  · simp [List.mem_append, out_mem_outs]

theorem countMsg_append (m : Msg) (l1 l2 : List Msg) :
    countMsg m (l1 ++ l2) = countMsg m l1 + countMsg m l2 := by
  induction l1 with
  | nil => simp [countMsg]
  | cons x l ih => simp [countMsg, ih, Nat.add_assoc]

/-- The messages a single `add_host` call prints: nothing, or the single
could-not-resolve report. -/
theorem add_host_msgs {cl : Classify} {st : St} {raw : String} {st' : St}
    {m : List Msg} {a : Action} (h : add_host cl st raw = Except.ok (st', m, a)) :
    m = [] ∨ m = [Msg.couldNotResolve raw] := by
  rcases hip : cl.ip_address raw with _ | ip
  · rcases hnet : cl.ip_network raw with _ | net
    · rcases hdns : cl.dns_query raw with ips | _ | _ | e
      · simp only [add_host, hip, hnet, hdns, Except.ok.injEq, Prod.mk.injEq] at h
        exact Or.inl h.2.1.symm
      · simp only [add_host, hip, hnet, hdns, Except.ok.injEq, Prod.mk.injEq] at h
        exact Or.inr h.2.1.symm
      · simp only [add_host, hip, hnet, hdns, Except.ok.injEq, Prod.mk.injEq] at h
        exact Or.inr h.2.1.symm
      · simp only [add_host, hip, hnet, hdns] at h
        exact Except.noConfusion h
    · simp only [add_host, hip, hnet, Except.ok.injEq, Prod.mk.injEq] at h
      exact Or.inl h.2.1.symm
  · simp only [add_host, hip, Except.ok.injEq, Prod.mk.injEq] at h
    exact Or.inl h.2.1.symm

/-- The `populate` loop itself never prints the no-Shodan-key report. -/
theorem populateLoop_noShodan {cl : Classify} :
    ∀ (inputs : List String) (st0 stF : St) (ms : List Msg),
      populateLoop cl st0 inputs = Except.ok (stF, ms) →
      countMsg Msg.noShodanKey ms = 0 := by
  intro inputs
  induction inputs with
  | nil =>
    intro st0 stF ms h
    simp only [populateLoop, Except.ok.injEq, Prod.mk.injEq] at h
    rw [← h.2]
    rfl
  | cons raw rest ih =>
    intro st0 stF ms h
    rw [populateLoop] at h
    split at h
    · exact Except.noConfusion h
    · rename_i st1 m1 a1 ha
      split at h
      · exact Except.noConfusion h
      · rename_i st2 ms2 hl
        simp only [Except.ok.injEq, Prod.mk.injEq] at h
        rw [← h.2, countMsg_append]
        have h1 : countMsg Msg.noShodanKey m1 = 0 := by
          rcases add_host_msgs ha with hm | hm <;> subst hm <;> rfl
        rw [h1, ih st1 st2 ms2 hl]

/-- C3: in `dns_only` mode a Host target is dispatched to
`dns_scan_on_host`, whose trace enters the DNS phase, enters no other phase
(in particular none of whois-domain, whois-IP, Shodan, subdomain discovery
or the CIDR reverse sweep), and contains the condensed DNS-only result line
exactly when a domain was resolved for the Host. -/
theorem dns_only_scan_phases (ops : HostOps) (key : Option String) (h : Host) :
    scan_one ops key true (Target.host h) =
      (Target.host (dns_scan_on_host ops h).1, (dns_scan_on_host ops h).2)
    ∧ Event.call Phase.dns ∈ (dns_scan_on_host ops h).2
    ∧ (∀ p, Event.call p ∈ (dns_scan_on_host ops h).2 → p = Phase.dns)
    ∧ ((∃ s, Event.out (Msg.dnsOnlyLine s) ∈ (dns_scan_on_host ops h).2) ↔
        pyTruthy (ops.dns_lookups h).domain = true) := by
  refine ⟨rfl, ?_, ?_, ?_⟩
  · simp [dns_scan_on_host, List.mem_append]
  · intro p hp
    simp only [dns_scan_on_host, List.mem_append, List.singleton_append,
      List.mem_cons] at hp
    rcases hp with (ho | hc | h0) | hi
    · exact absurd ho (call_not_mem_outs p _)
    · exact Event.call.inj hc
    · exact absurd h0 (List.not_mem_nil _)
    · exact absurd hi call_not_mem_ite_outs
  · cases hd : pyTruthy (ops.dns_lookups h).domain <;>
      simp [dns_scan_on_host, List.mem_append, hd, out_mem_outs, outs]

theorem dns_only_scan_phases_witness :
    (Event.call Phase.whoisDomain ∈
        (dns_scan_on_host
          ⟨id, id, id, id, id, fun _ => id, id, id, fun _ => "", fun _ => "", fun _ => "",
            fun _ _ => none, fun _ => none, fun _ => "", fun _ => ""⟩
          (mkHost [134744072] none)).2 → Phase.whoisDomain = Phase.dns) ∧
    Phase.whoisDomain ≠ Phase.dns :=
  ⟨(dns_only_scan_phases
      ⟨id, id, id, id, id, fun _ => id, id, id, fun _ => "", fun _ => "", fun _ => "",
        fun _ _ => none, fun _ => none, fun _ => "", fun _ => ""⟩
      none (mkHost [134744072] none)).2.2.1 Phase.whoisDomain, by decide⟩

/-- C9: the Shodan phase of a full scan is entered exactly when a truthy
credential was configured; the per-host scan never prints the missing-key
report; and a full (non-`dns_only`) `populate` run that found targets while
no truthy key is configured prints the missing-key report exactly once. -/
theorem shodan_phase_gating :
    (∀ (ops : HostOps) (key : Option String) (h : Host),
      (Event.call Phase.shodan ∈ (full_scan_on_host ops key h).2 ↔ pyTruthy key = true)
      ∧ Event.out Msg.noShodanKey ∉ (full_scan_on_host ops key h).2)
    ∧ (∀ (cl : Classify) (key : Option String) (inputs : List String)
        (st : St) (msgs : List Msg),
      pyTruthy key = false →
      populate cl false key ⟨[], []⟩ inputs = Except.ok (st, msgs) →
      st.targets ≠ [] →
      countMsg Msg.noShodanKey msgs = 1) := by
  constructor
  · intro ops key h
    constructor
    · simp [full_scan_on_host, List.mem_append, call_not_mem_outs,
        call_mem_shodanSeg, call_mem_googleSeg, call_mem_sweepSeg]
    · simp [full_scan_on_host, List.mem_append, out_mem_outs, mem_ite_nil, mem_catMap,
        noShodan_not_mem_shodanSeg, noShodan_not_mem_googleSeg, noShodan_not_mem_sweepSeg]
  · intro cl key inputs st msgs hk h hne
    unfold populate at h
    split at h
    · exact Except.noConfusion h
    · rename_i st1 ms hl
      split at h
      · rename_i htg
        simp only [Except.ok.injEq, Prod.mk.injEq] at h
        rw [← h.1] at hne
        exact absurd htg hne
      · simp only [Bool.false_eq_true, if_false, hk, Except.ok.injEq, Prod.mk.injEq] at h
        rw [← h.2, countMsg_append, countMsg_append,
          populateLoop_noShodan inputs ⟨[], []⟩ st1 ms hl]
        rfl

theorem shodan_phase_gating_witness :
    pyTruthy none = false ∧
    (populate (pyClassify fun _ => DnsResult.nxdomain) false none ⟨[], []⟩ ["8.8.8.8"] =
      Except.ok (⟨[Target.host (mkHost [134744072] none)], []⟩,
        [Msg.scanningHosts 1 1, Msg.noShodanKey])) ∧
    countMsg Msg.noShodanKey [Msg.scanningHosts 1 1, Msg.noShodanKey] = 1 ∧
    Event.out Msg.noShodanKey ∉
      (full_scan_on_host
        ⟨id, id, id, id, id, fun _ => id, id, id, fun _ => "", fun _ => "",
          fun _ => "", fun _ _ => none, fun _ => none, fun _ => "", fun _ => ""⟩
        none (mkHost [134744072] none)).2 :=
  ⟨rfl, rfl,
    shodan_phase_gating.2 (pyClassify fun _ => DnsResult.nxdomain) none ["8.8.8.8"]
      ⟨[Target.host (mkHost [134744072] none)], []⟩
      [Msg.scanningHosts 1 1, Msg.noShodanKey] rfl rfl (by simp),
    (shodan_phase_gating.1
      ⟨id, id, id, id, id, fun _ => id, id, id, fun _ => "", fun _ => "",
        fun _ => "", fun _ _ => none, fun _ => none, fun _ => "", fun _ => ""⟩
      none (mkHost [134744072] none)).2⟩

/-! ### Write-loop lemmas -/

/-- Failed attempts and declined interrupts neither write nor terminate: the
loop continues past them unchanged. -/
theorem write_loop_skip (rows : List Row) (file : Option (List Row)) :
    ∀ (pre l : List Attempt),
      (∀ a ∈ pre, a = Attempt.failWrite ∨ a = Attempt.interrupt false) →
      write_loop rows file (pre ++ l) = write_loop rows file l := by
  intro pre
  induction pre with
  | nil =>
    intro l _
    rfl
  | cons a pre ih =>
    intro l hall
    rcases hall a (List.mem_cons_self a pre) with ha | ha <;> subst ha <;>
      simp only [List.cons_append, write_loop] <;>
      exact ih l (fun b hb => hall b (List.mem_cons_of_mem _ hb))

/-- Whenever the loop reports the file written, the file holds exactly the
prepared rows. -/
theorem write_loop_written :
    ∀ {l : List Attempt} {rows : List Row} {file f : Option (List Row)},
      write_loop rows file l = (WStatus.written, f) → f = some rows := by
  intro l
  induction l with
  | nil =>
    intro rows file f h
    simp [write_loop] at h
  | cons a rest ih =>
    intro rows file f h
    cases a with
    | success =>
      simp only [write_loop, Prod.mk.injEq] at h
      exact h.2.symm
    | failWrite => exact ih h
    | interrupt c =>
      cases c
      · exact ih h
      · simp [write_loop] at h

/-- C4: the export writer retries after any number of write failures or
declined interrupts; once an attempt succeeds the file holds exactly the
prepared rows, identical to a first-try success; and a confirmed interrupt
during the retry loop aborts with the file never written. -/
theorem write_retry_loop :
    (∀ (rows : List Row) (pre rest : List Attempt),
      (∀ a ∈ pre, a = Attempt.failWrite ∨ a = Attempt.interrupt false) →
      write_loop rows none (pre ++ Attempt.success :: rest) =
        (WStatus.written, some rows) ∧
      write_loop rows none [Attempt.success] = (WStatus.written, some rows))
    ∧ (∀ (rows : List Row) (pre rest : List Attempt),
      (∀ a ∈ pre, a = Attempt.failWrite ∨ a = Attempt.interrupt false) →
      write_loop rows none (pre ++ Attempt.interrupt true :: rest) =
        (WStatus.interrupted, none)) := by
  constructor
  · intro rows pre rest hall
    rw [write_loop_skip rows none pre _ hall]
    exact ⟨rfl, rfl⟩
  · intro rows pre rest hall
    rw [write_loop_skip rows none pre _ hall]
    rfl

theorem write_retry_loop_witness :
    write_loop [["a"]] none
        ([Attempt.failWrite, Attempt.interrupt false] ++ Attempt.success :: []) =
      (WStatus.written, some [["a"]]) ∧
    write_loop [["a"]] none [Attempt.success] = (WStatus.written, some [["a"]]) ∧
    write_loop [["a"]] none ([Attempt.failWrite] ++ Attempt.interrupt true :: []) =
      (WStatus.interrupted, none) :=
  ⟨(write_retry_loop.1 [["a"]] [Attempt.failWrite, Attempt.interrupt false] []
      (by decide)).1,
   (write_retry_loop.1 [["a"]] [Attempt.failWrite, Attempt.interrupt false] []
      (by decide)).2,
   write_retry_loop.2 [["a"]] [Attempt.failWrite] [] (by decide)⟩

/-- C7: the serialized rows are a function of the target list alone (two
states with equal target lists serialize identically), and any two runs of
the write loop that reach a successful write — regardless of how many
failures preceded it — leave byte-identical files, namely exactly the
prepared row sequence. -/
theorem csv_rows_deterministic :
    (∀ (csvOf : Target → List Row) (st1 st2 : St),
      st1.targets = st2.targets →
      buildRows csvOf st1.targets = buildRows csvOf st2.targets)
    ∧ (∀ (csvOf : Target → List Row) (ts : List Target) (as1 as2 : List Attempt)
        (f1 f2 : Option (List Row)),
      write_loop (buildRows csvOf ts) none as1 = (WStatus.written, f1) →
      write_loop (buildRows csvOf ts) none as2 = (WStatus.written, f2) →
      f1 = f2 ∧ f1 = some (buildRows csvOf ts)) := by
  constructor
  · intro csvOf st1 st2 h
    rw [h]
  · intro csvOf ts as1 as2 f1 f2 h1 h2
    have e1 := write_loop_written h1
    have e2 := write_loop_written h2
    exact ⟨e1.trans e2.symm, e1⟩

theorem csv_rows_deterministic_witness :
    write_loop (buildRows (fun _ => ([] : List Row)) []) none [Attempt.success] =
      (WStatus.written, some (buildRows (fun _ => ([] : List Row)) [])) ∧
    write_loop (buildRows (fun _ => ([] : List Row)) []) none
        [Attempt.failWrite, Attempt.success] =
      (WStatus.written, some (buildRows (fun _ => ([] : List Row)) [])) ∧
    (some (buildRows (fun _ => ([] : List Row)) []) =
        some (buildRows (fun _ => ([] : List Row)) []) ∧
      some (buildRows (fun _ => ([] : List Row)) []) =
        some (buildRows (fun _ => ([] : List Row)) [])) :=
  ⟨rfl, rfl,
    csv_rows_deterministic.2 (fun _ => ([] : List Row)) [] [Attempt.success]
      [Attempt.failWrite, Attempt.success]
      (some (buildRows (fun _ => ([] : List Row)) []))
      (some (buildRows (fun _ => ([] : List Row)) [])) rfl rfl⟩

end InstaRecon
